import Mathlib

/-!
Shallow embedding of the record-construction and emission pipeline of the
yyscamper/logrus structured logger (src/entry.go), together with theorems
checking the natural-language specification against it.

Go `interface{}` field values are modelled by the closed sum `Value`; Go maps
(`logrus.Fields`) by functions `String → Option Value`; the control flow of
`Entry.log` and the leveled logging methods by an explicit event trace plus an
outcome (normal return, process exit, or panic unwind).
-/

set_option maxHeartbeats 1000000

namespace Logrus

/-- Go `interface{}` values that can appear in a field set.  The two error
constructors model the `error` values relevant to `Entry.WithError`:
`errStructured` is the rich `*errors.Error` type of github.com/yyscamper/errors
(carrying a module name `Name`, an already-captured stack trace `Stack()`, and
attached `Fields`), `errPlain` is any other `error` value. -/
inductive Value where
  | null
  | str (s : String)
  | int (n : Int)
  | boolV (b : Bool)
  | errStructured (name : String) (stack : String) (fields : List (String × Value))
  | errPlain (msg : String)
deriving Repr

/-- `fmt.Sprintf` with the `%v` verb, restricted to the modelled values: the
display-string form of a value. -/
def Value.display : Value → String
  | .null => "<nil>"
  | .str s => s
  | .int n => toString n
  | .boolV b => if b then "true" else "false"
  | .errStructured name _ _ => name
  | .errPlain msg => msg

/-- `logrus.Fields` / Go `map[string]interface{}`: a finite map from string
keys to values, embedded as a lookup function. -/
def Fields : Type := String → Option Value

/-- The empty map (also models a nil Go map, whose lookups all miss). -/
def Fields.empty : Fields := fun _ => none

/-- Go map assignment `m[k] = v` (producing the updated map). -/
def Fields.set (f : Fields) (k : String) (v : Value) : Fields :=
  fun q => if q = k then some v else f q

/-- A sequence of Go map assignments, performed left to right (later
assignments win on key collision). -/
def Fields.setList (f : Fields) (ps : List (String × Value)) : Fields :=
  ps.foldl (fun acc p => acc.set p.1 p.2) f

-- src/entry.go: reserved field keys and the default module name.
def ErrorKey : String := "error"
def StacktraceKey : String := "stacktrace"
def ModuleNameKey : String := "module"
def DefaultModuleName : String := ""

/-- Log severities.  src/entry.go compares them through their numeric codes
(`PanicLevel = 0` is most severe, `TraceLevel = 6` least). -/
inductive Level where
  | panic
  | fatal
  | error
  | warn
  | info
  | debug
  | trace
deriving DecidableEq, Repr

/-- The numeric code of a level (as in the upstream `Level` enumeration). -/
def Level.toNat : Level → Nat
  | .panic => 0
  | .fatal => 1
  | .error => 2
  | .warn => 3
  | .info => 4
  | .debug => 5
  | .trace => 6

/-- The Level Registry held by a `Logger`.
Modelled from the spec: the `Logger` type and its `level(moduleName)` lookup
(logger.go) are not among the provided sources; per spec section 4.7 and the
data model, the registry maps a module name to a minimum severity, an unmapped
module name resolves to the wildcard entry, and if no wildcard is set, to a
hard-coded baseline severity. -/
structure Logger where
  registry : List (String × Level)
  baseline : Level

/-- Modelled from the spec: `Logger.level(module)` — look the module up in the
registry, fall back to the wildcard entry, then to the baseline. -/
def Logger.level (lg : Logger) (m : String) : Level :=
  match lg.registry.lookup m with
  | some l => l
  | none =>
    match lg.registry.lookup "*" with
    | some l => l
    | none => lg.baseline

/-- The `Entry` of src/entry.go, reduced to the attributes the claims are
about: its field set.  (Logger reference, timestamp, level, message and the
transient buffer are carried separately by the emission model below.) -/
structure Entry where
  Data : Fields

/-- src/entry.go `Entry.WithFields`: copy the entry's data, then write every
entry of `fields` over it (new entries win key collisions), and return a new
entry holding the result. -/
def Entry.WithFields (entry : Entry) (fields : Fields) : Entry :=
  { Data := fun k => match fields k with
      | some v => some v
      | none => entry.Data k }

/-- src/entry.go `Entry.WithField`: delegates to `WithFields` with a
single-entry map. -/
def Entry.WithField (entry : Entry) (key : String) (value : Value) : Entry :=
  entry.WithFields (Fields.empty.set key value)

/-- src/entry.go `stringify`: a string value is returned as is, anything else
is rendered with `fmt.Sprintf("%v", val)`. -/
def stringify (val : Value) : String :=
  match val with
  | .str k => k
  | v => v.display

/-- The key/value pairs written by the loop of src/entry.go `Entry.With`:
`extras` is consumed two at a time (`fields[stringify(extras[i])] =
extras[i+1]`), and a final unpaired element is written with a nil value. -/
def withExtras : List Value → List (String × Value)
  | k :: v :: rest => (stringify k, v) :: withExtras rest
  | [k] => [(stringify k, Value.null)]
  | [] => []

/-- src/entry.go `Entry.With`: start from `fields[key] = value`, consume the
trailing extras as pairs (odd tail key gets a nil value), then delegate to
`WithFields`. -/
def Entry.With (entry : Entry) (key : String) (value : Value)
    (extras : List Value) : Entry :=
  entry.WithFields ((Fields.empty.set key value).setList (withExtras extras))

/-- src/entry.go `Entry.WithModule`. -/
def Entry.WithModule (entry : Entry) (moduleName : String) : Entry :=
  entry.WithField ModuleNameKey (.str moduleName)

/-- src/entry.go `Entry.WithError`.  `freshTrace` stands for the stack trace
`errors.Stack(2)` captures at the point of the call (the adapter's own frame
excluded); it is only used on the non-structured branch.  On the structured
branch the reserved keys are written first and the error's attached fields are
then written over them in a Go map, so a colliding attached field overwrites a
reserved key. -/
def Entry.WithError (entry : Entry) (err : Value) (freshTrace : String) : Entry :=
  match err with
  | .errStructured name stack fl =>
    let fields0 := (Fields.empty.set ErrorKey err).set StacktraceKey (.str stack)
    let fields1 := if name ≠ "" then fields0.set ModuleNameKey (.str name) else fields0
    entry.WithFields (fields1.setList fl)
  | _ =>
    entry.WithFields
      ((Fields.empty.set ErrorKey err).set StacktraceKey (.str freshTrace))

/-- src/entry.go `Entry.matchLevel`: resolve the module name from the entry's
data (default if absent), then compare the registry's level for it with the
requested level.  The Go code performs an unguarded type assertion
`name.(string)`: a present, non-string module value makes the gate panic,
modelled by `none`. -/
def Entry.matchLevel (lg : Logger) (entry : Entry) (lv : Level) : Option Bool :=
  match entry.Data ModuleNameKey with
  | none => some (decide (lv.toNat ≤ (lg.level DefaultModuleName).toNat))
  | some (.str name) => some (decide (lv.toNat ≤ (lg.level name).toNat))
  | some _ => none

/-- The observable steps of the emission pipeline of src/entry.go
`Entry.log` and of the leveled methods around it.  The three `FailReport`
events are the diagnostic messages written to `os.Stderr`. -/
inductive Event where
  | hookFire
  | hookFailReport
  | bufGet
  | format
  | write
  | writeFailReport
  | formatFailReport
  | panicked
  | bufPut
  | exited
deriving DecidableEq, Repr

/-- The outcomes of the external collaborators invoked during one emission:
whether `Hooks.Fire` returns an error, whether `Formatter.Format` succeeds,
and whether `Out.Write` returns an error. -/
structure LogEnv where
  hookFails : Bool
  formatOk : Bool
  writeFails : Bool

/-- What a panic carries when a logging call unwinds. -/
inductive Payload where
  | record (data : Fields) (lv : Level) (msg : String)
  | message (s : String)
  | typeAssertionFailure

/-- How a logging call hands control back to its caller. -/
inductive Outcome where
  | normal
  | exit (code : Nat)
  | unwind (p : Payload)

/-- The event trace of src/entry.go `Entry.log`: fire the hooks (report a hook
failure and continue), get and reset a pooled buffer (with a deferred return
to the pool), format; on formatter failure report and skip the write,
otherwise write under the logger's lock (reporting a write failure); finally,
panic with the entry itself when the level is `PanicLevel`.  The deferred
`bufferPool.Put` runs on both the normal return and the panicking unwind, so
`bufPut` closes the trace on every path. -/
def logTrace (env : LogEnv) (level : Level) : List Event :=
  [Event.hookFire]
    ++ (if env.hookFails then [Event.hookFailReport] else [])
    ++ [Event.bufGet, Event.format]
    ++ (if env.formatOk then
          [Event.write] ++ (if env.writeFails then [Event.writeFailReport] else [])
        else [Event.formatFailReport])
    ++ (if level.toNat ≤ Level.panic.toNat then [Event.panicked] else [])
    ++ [Event.bufPut]

/-- src/entry.go `Entry.log` as trace plus outcome: it returns normally except
at `PanicLevel`, where the `panic(&entry)` unwinds carrying the entry (whose
level and message were just filled in). -/
def Entry.log (entry : Entry) (env : LogEnv) (level : Level) (msg : String) :
    List Event × Outcome :=
  (logTrace env level,
   if level.toNat ≤ Level.panic.toNat then
     .unwind (.record entry.Data level msg)
   else .normal)

/-- The shared shape of src/entry.go `Entry.Trace/Debug/Info/Warn/Error`: gate
with `matchLevel`, and call `log` only when the gate passes.  A `none` gate is
the type-assertion panic inside `matchLevel`, which unwinds before anything
else happens. -/
def leveledCall (lg : Logger) (entry : Entry) (env : LogEnv) (lv : Level)
    (msg : String) : List Event × Outcome :=
  match entry.matchLevel lg lv with
  | none => ([], .unwind .typeAssertionFailure)
  | some false => ([], .normal)
  | some true => entry.log env lv msg

/-- src/entry.go `Entry.Fatal`: gate, log when the gate passes, and then call
`Exit(1)` unconditionally — also when the gate suppressed the record.  A
panicking gate unwinds before `Exit` is reached. -/
def fatalCall (lg : Logger) (entry : Entry) (env : LogEnv) (msg : String) :
    List Event × Outcome :=
  match entry.matchLevel lg .fatal with
  | none => ([], .unwind .typeAssertionFailure)
  | some false => ([Event.exited], .exit 1)
  | some true => ((entry.log env .fatal msg).1 ++ [Event.exited], .exit 1)

/-- src/entry.go `Entry.Panic`: gate, log when the gate passes — in which case
`log`'s own `panic(&entry)` unwinds carrying the record, and the method's
trailing `panic(spew.Sdump(args...))` is never reached.  When the gate
suppresses the record the trailing panic still fires, carrying the dumped
arguments instead. -/
def panicCall (lg : Logger) (entry : Entry) (env : LogEnv) (msg : String) :
    List Event × Outcome :=
  match entry.matchLevel lg .panic with
  | none => ([], .unwind .typeAssertionFailure)
  | some false => ([Event.panicked], .unwind (.message msg))
  | some true => entry.log env .panic msg

/-! ## Basic lemmas about the field-set embedding -/

theorem Fields.set_apply (f : Fields) (k : String) (v : Value) (q : String) :
    f.set k v q = if q = k then some v else f q := rfl

theorem Fields.setList_apply (ps : List (String × Value)) (f : Fields)
    (q : String) :
    f.setList ps q = (ps.reverse.lookup q).or (f q) := by
  induction ps generalizing f with
  | nil => simp [Fields.setList]
  | cons p ps ih =>
    show Fields.setList (f.set p.1 p.2) ps q = _
    rw [ih, List.reverse_cons, List.lookup_append, Option.or_assoc]
    congr 1
    rcases p with ⟨pk, pv⟩
    rw [Fields.set_apply]
    by_cases h : q = pk
    · simp [h]
    · simp only [List.lookup_cons, List.lookup_nil]
      have hb : (q == pk) = false := by simpa using h
      simp [hb, h]

theorem Entry.WithFields_apply (e : Entry) (f : Fields) (k : String) :
    (e.WithFields f).Data k = (f k).or (e.Data k) := by
  show (match f k with | some v => some v | none => e.Data k) = _
  cases f k <;> rfl

theorem Entry.WithField_apply (e : Entry) (key : String) (value : Value)
    (k : String) :
    (e.WithField key value).Data k = if k = key then some value else e.Data k := by
  rw [Entry.WithField, Entry.WithFields_apply, Fields.set_apply]
  by_cases h : k = key <;> simp [h, Fields.empty]

/-! ## Claim theorems -/

/-- C1: `Entry.WithFields` returns a new entry whose data is exactly the union
of the entry's data and the given field map, the map's entries winning key
collisions; `WithField` delegates to `WithFields`; deriving two records from
one parent with conflicting values for the same key yields two independent
records (one with a = v1, the other with a = v2), each differing from the
parent only at the written key, while the parent's own data is a distinct,
untouched value. -/
theorem C1_withFields_union (e : Entry) (f : Fields) (k key : String)
    (value v1 v2 : Value) :
    ((e.WithFields f).Data k = (f k).or (e.Data k))
    ∧ (e.WithField key value = e.WithFields (Fields.empty.set key value))
    ∧ ((e.WithField key value).Data k
        = if k = key then some value else e.Data k)
    ∧ ((e.WithField "a" v1).Data "a" = some v1)
    ∧ ((e.WithField "a" v2).Data "a" = some v2)
    ∧ ((e.WithField "a" v1).Data k = if k = "a" then some v1 else e.Data k) := by
  refine ⟨Entry.WithFields_apply e f k, rfl, Entry.WithField_apply e key value k,
    ?_, ?_, Entry.WithField_apply e "a" v1 k⟩
  · rw [Entry.WithField_apply]; simp
  · rw [Entry.WithField_apply]; simp

/-- The registry of Testable Property 3 of the spec: {foo: debug, *: info}. -/
def fooBarLogger : Logger :=
  ⟨[("foo", Level.debug), ("*", Level.info)], Level.info⟩

/-- An entry whose module-name field is "foo". -/
def entryFoo : Entry := ⟨Fields.empty.set ModuleNameKey (Value.str "foo")⟩

/-- An entry whose module-name field is "bar". -/
def entryBar : Entry := ⟨Fields.empty.set ModuleNameKey (Value.str "bar")⟩

/-- C2: a leveled logging call resolves the module name by reading the
module-name key from the entry's field set (the default empty name when
absent), looks that module's minimum severity up in the registry, and runs the
emission step iff the requested severity is at least as severe as that minimum
(numerically: the registry level's code is at least the requested level's);
with registry {foo: debug, *: info}, a debug call tagged "foo" passes the
gate, a debug call tagged "bar" is suppressed through the wildcard, and an
untagged call is gated by the wildcard entry (debug suppressed, info
emitted). -/
theorem C2_severity_gate (lg : Logger) (e : Entry) (env : LogEnv) (lv : Level)
    (msg s : String) :
    (e.Data ModuleNameKey = none →
      leveledCall lg e env lv msg =
        if lv.toNat ≤ (lg.level DefaultModuleName).toNat then e.log env lv msg
        else ([], .normal))
    ∧ (e.Data ModuleNameKey = some (.str s) →
      leveledCall lg e env lv msg =
        if lv.toNat ≤ (lg.level s).toNat then e.log env lv msg
        else ([], .normal))
    ∧ (Entry.matchLevel fooBarLogger entryFoo .debug = some true
       ∧ Entry.matchLevel fooBarLogger entryBar .debug = some false
       ∧ Entry.matchLevel fooBarLogger ⟨Fields.empty⟩ .debug = some false
       ∧ Entry.matchLevel fooBarLogger ⟨Fields.empty⟩ .info = some true) := by
  refine ⟨?_, ?_, by decide, by decide, by decide, by decide⟩
  · intro h
    rw [leveledCall, Entry.matchLevel, h]
    by_cases hp : lv.toNat ≤ (lg.level DefaultModuleName).toNat
    · simp [hp]
    · simp [hp]
  · intro h
    rw [leveledCall, Entry.matchLevel, h]
    by_cases hp : lv.toNat ≤ (lg.level s).toNat
    · simp [hp]
    · simp [hp]

/-- Witness for C2: a debug call on an entry tagged "foo" under the example
registry runs the emission step. -/
theorem C2_severity_gate_witness :
    leveledCall fooBarLogger entryFoo ⟨false, true, false⟩ Level.debug "m"
      = Entry.log entryFoo ⟨false, true, false⟩ Level.debug "m" :=
  ((C2_severity_gate fooBarLogger entryFoo ⟨false, true, false⟩ Level.debug "m"
      "foo").2.1 rfl).trans (if_pos (by decide))

/-- C10: when the entry's field set maps the module-name key to a value that
is not a string, the unguarded type assertion in `matchLevel` panics, so every
leveled logging call — including Fatal and Panic — unwinds during the gate
check without emitting, exiting, or logging anything. -/
theorem C10_gate_type_assertion (lg : Logger) (e : Entry) (env : LogEnv)
    (lv : Level) (msg : String) (v : Value)
    (hv : e.Data ModuleNameKey = some v) (hs : ∀ s, v ≠ Value.str s) :
    Entry.matchLevel lg e lv = none
    ∧ leveledCall lg e env lv msg = ([], .unwind .typeAssertionFailure)
    ∧ fatalCall lg e env msg = ([], .unwind .typeAssertionFailure)
    ∧ panicCall lg e env msg = ([], .unwind .typeAssertionFailure) := by
  have hm : ∀ lv' : Level, Entry.matchLevel lg e lv' = none := by
    intro lv'
    rw [Entry.matchLevel, hv]
    cases v with
    | str s => exact absurd rfl (hs s)
    | null => rfl
    | int n => rfl
    | boolV b => rfl
    | errStructured a b c => rfl
    | errPlain m => rfl
  exact ⟨hm lv, by rw [leveledCall, hm], by rw [fatalCall, hm],
    by rw [panicCall, hm]⟩

/-- Witness for C10: an entry whose module field holds the integer 3 makes the
gate panic. -/
theorem C10_gate_type_assertion_witness :
    Entry.matchLevel fooBarLogger ⟨Fields.empty.set ModuleNameKey (Value.int 3)⟩
      Level.debug = none :=
  (C10_gate_type_assertion fooBarLogger
    ⟨Fields.empty.set ModuleNameKey (Value.int 3)⟩ ⟨false, true, false⟩
    Level.debug "m" (Value.int 3) rfl (fun _ h => Value.noConfusion h)).1

/-- C3: for every record that passes the gate at a terminal severity and
whose formatter succeeds, the write to the output sink precedes the terminal
side effect: a Fatal call's trace has the write strictly before the process
exit, and a Panic call's trace has the write strictly before the panic, whose
unwind carries the record itself as payload. -/
theorem C3_write_before_terminal (lg : Logger) (e : Entry) (env : LogEnv)
    (msg : String) (hfmt : env.formatOk = true) :
    (Entry.matchLevel lg e .fatal = some true →
      List.Sublist [Event.write, Event.exited] (fatalCall lg e env msg).1
      ∧ (fatalCall lg e env msg).2 = .exit 1)
    ∧ (Entry.matchLevel lg e .panic = some true →
      List.Sublist [Event.write, Event.panicked] (panicCall lg e env msg).1
      ∧ (panicCall lg e env msg).2 = .unwind (.record e.Data .panic msg)) := by
  obtain ⟨hf, fo, wf⟩ := env
  cases hfmt
  constructor
  · intro h
    have h1 : (fatalCall lg e ⟨hf, true, wf⟩ msg).1
        = logTrace ⟨hf, true, wf⟩ .fatal ++ [Event.exited] := by
      simp [fatalCall, h, Entry.log]
    have h2 : (fatalCall lg e ⟨hf, true, wf⟩ msg).2 = .exit 1 := by
      simp [fatalCall, h, Entry.log]
    refine ⟨?_, h2⟩
    rw [h1]
    cases hf <;> cases wf <;> decide
  · intro h
    have h1 : (panicCall lg e ⟨hf, true, wf⟩ msg).1
        = logTrace ⟨hf, true, wf⟩ .panic := by
      simp [panicCall, h, Entry.log]
    have h2 : (panicCall lg e ⟨hf, true, wf⟩ msg).2
        = .unwind (.record e.Data .panic msg) := by
      simp [panicCall, h, Entry.log, Level.toNat]
    refine ⟨?_, h2⟩
    rw [h1]
    cases hf <;> cases wf <;> decide

/-- Witness for C3: with a passing gate and a succeeding formatter, the write
precedes the exit in a concrete Fatal call's trace. -/
theorem C3_write_before_terminal_witness :
    List.Sublist [Event.write, Event.exited]
      (fatalCall fooBarLogger ⟨Fields.empty⟩ ⟨false, true, false⟩ "m").1 :=
  ((C3_write_before_terminal fooBarLogger ⟨Fields.empty⟩ ⟨false, true, false⟩
    "m" rfl).1 (by decide)).1

/-- A registry whose wildcard minimum is Panic, the most restrictive setting:
it suppresses even Fatal-level records. -/
def quietLogger : Logger := ⟨[("*", Level.panic)], Level.panic⟩

/-- Counterexample to C4: under a registry whose minimum severity is Panic, a
Fatal call is gated out (`matchLevel` returns false), yet the call is not a
no-op — `Exit(1)` sits after the gate's `if` in `Entry.Fatal` and runs
unconditionally, so the process still exits with status 1. -/
theorem C4_counterexample :
    Entry.matchLevel quietLogger ⟨Fields.empty⟩ Level.fatal = some false
    ∧ fatalCall quietLogger ⟨Fields.empty⟩ ⟨false, true, false⟩ "m"
        = ([Event.exited], Outcome.exit 1) :=
  ⟨by decide, rfl⟩

/-- C4 as amended: a logging call whose requested severity is below the
resolved module's minimum fires no hook, acquires no buffer and writes
nothing; for the non-terminal methods the call is a complete no-op, but a
gated-out Fatal call still exits the process with status 1.  (A Panic call can
never be gated out: Panic is the most severe level, so its gate check never
returns false.) -/
theorem C4_amended (lg : Logger) (e : Entry) (env : LogEnv) (lv : Level)
    (msg : String) :
    (Entry.matchLevel lg e lv = some false →
      leveledCall lg e env lv msg = ([], .normal))
    ∧ (Entry.matchLevel lg e .fatal = some false →
      fatalCall lg e env msg = ([Event.exited], .exit 1)
      ∧ Event.hookFire ∉ (fatalCall lg e env msg).1
      ∧ Event.bufGet ∉ (fatalCall lg e env msg).1
      ∧ Event.write ∉ (fatalCall lg e env msg).1)
    ∧ Entry.matchLevel lg e .panic ≠ some false := by
  refine ⟨?_, ?_, ?_⟩
  · intro h
    rw [leveledCall, h]
  · intro h
    have h1 : fatalCall lg e env msg = ([Event.exited], .exit 1) := by
      rw [fatalCall, h]
    exact ⟨h1, by rw [h1]; decide, by rw [h1]; decide, by rw [h1]; decide⟩
  · rw [Entry.matchLevel]
    rcases hd : e.Data ModuleNameKey with _ | v
    · simp [Level.toNat]
    · cases v <;> simp [Level.toNat]

/-- Witness for C4: under the Panic-minimum registry an Error call is a
complete no-op while a Fatal call still exits the process. -/
theorem C4_amended_witness :
    leveledCall quietLogger ⟨Fields.empty⟩ ⟨false, true, false⟩ Level.error "m"
      = ([], .normal)
    ∧ fatalCall quietLogger ⟨Fields.empty⟩ ⟨false, true, false⟩ "m"
      = ([Event.exited], .exit 1) :=
  ⟨(C4_amended quietLogger ⟨Fields.empty⟩ ⟨false, true, false⟩ Level.error
      "m").1 (by decide),
   ((C4_amended quietLogger ⟨Fields.empty⟩ ⟨false, true, false⟩ Level.error
      "m").2.1 (by decide)).1⟩

/-- C6: no internal pipeline failure reaches the caller as an error.  A hook
failure is reported to the diagnostic sink and formatting still runs; a
formatter failure is reported and suppresses only the write, while a gated-in
Fatal call still exits and a gated-in Panic call still unwinds with the
record; a write failure is reported and the call still finishes normally —
every non-Panic leveled call whose gate does not itself panic returns the
normal outcome whatever the collaborators do. -/
theorem C6_failures_not_propagated (lg : Logger) (e : Entry) (env : LogEnv)
    (lv : Level) (msg : String) (b : Bool) :
    (env.hookFails = true →
      Event.hookFailReport ∈ logTrace env lv ∧ Event.format ∈ logTrace env lv)
    ∧ (env.formatOk = false →
      Event.formatFailReport ∈ logTrace env lv
      ∧ Event.write ∉ logTrace env lv
      ∧ (Entry.matchLevel lg e .fatal = some true →
          (fatalCall lg e env msg).2 = .exit 1)
      ∧ (Entry.matchLevel lg e .panic = some true →
          (panicCall lg e env msg).2 = .unwind (.record e.Data .panic msg)))
    ∧ (env.formatOk = true → env.writeFails = true →
      Event.writeFailReport ∈ logTrace env lv)
    ∧ (lv ≠ .panic → Entry.matchLevel lg e lv = some b →
      (leveledCall lg e env lv msg).2 = .normal) := by
  obtain ⟨hf, fo, wf⟩ := env
  refine ⟨?_, ?_, ?_, ?_⟩
  · intro h
    cases h
    cases fo <;> cases wf <;> cases lv <;> exact (by decide)
  · intro h
    cases h
    refine ⟨?_, ?_, ?_, ?_⟩
    · cases hf <;> cases wf <;> cases lv <;> exact (by decide)
    · cases hf <;> cases wf <;> cases lv <;> exact (by decide)
    · intro hg
      simp [fatalCall, hg, Entry.log]
    · intro hg
      simp [panicCall, hg, Entry.log, Level.toNat]
  · intro h1 h2
    cases h1
    cases h2
    cases hf <;> cases lv <;> exact (by decide)
  · intro hlv hg
    cases b with
    | false => rw [leveledCall, hg]
    | true =>
      rw [leveledCall, hg, Entry.log]
      cases lv <;> simp_all [Level.toNat]

/-- Witness for C6: with a failing hook and a failing formatter, the trace
reports both failures, skips the write, and a concrete Warn call still
returns normally. -/
theorem C6_failures_not_propagated_witness :
    Event.hookFailReport ∈ logTrace ⟨true, false, false⟩ Level.warn
    ∧ Event.write ∉ logTrace ⟨true, false, false⟩ Level.warn
    ∧ (leveledCall fooBarLogger ⟨Fields.empty⟩ ⟨true, false, false⟩
        Level.warn "m").2 = .normal :=
  ⟨((C6_failures_not_propagated fooBarLogger ⟨Fields.empty⟩ ⟨true, false, false⟩
      Level.warn "m" true).1 rfl).1,
   ((C6_failures_not_propagated fooBarLogger ⟨Fields.empty⟩ ⟨true, false, false⟩
      Level.warn "m" true).2.1 rfl).2.1,
   (C6_failures_not_propagated fooBarLogger ⟨Fields.empty⟩ ⟨true, false, false⟩
      Level.warn "m" true).2.2.2 (by decide) (by decide)⟩

/-- C9: the pooled buffer is returned on every exit path of the emission step:
every `log` trace has exactly one `bufGet` and one `bufPut`, whatever the
hook, formatter and write outcomes and whatever the level (including the
Panic-level unwind, where the deferred return still runs); consequently every
leveled, Fatal or Panic call has balanced get/put counts, and after any
sequence of emissions the pool's checked-out count is zero. -/
theorem C9_buffer_pool_balanced (lg : Logger) (e : Entry) (env : LogEnv)
    (lv : Level) (msg : String) (envs : List LogEnv) :
    ((logTrace env lv).count Event.bufGet = 1
      ∧ (logTrace env lv).count Event.bufPut = 1)
    ∧ ((leveledCall lg e env lv msg).1.count Event.bufGet
        = (leveledCall lg e env lv msg).1.count Event.bufPut)
    ∧ ((fatalCall lg e env msg).1.count Event.bufGet
        = (fatalCall lg e env msg).1.count Event.bufPut)
    ∧ ((panicCall lg e env msg).1.count Event.bufGet
        = (panicCall lg e env msg).1.count Event.bufPut)
    ∧ (List.flatten (envs.map fun v => logTrace v lv)).count Event.bufGet
        = (List.flatten (envs.map fun v => logTrace v lv)).count Event.bufPut := by
  have hbase : ∀ (v : LogEnv) (l : Level),
      (logTrace v l).count Event.bufGet = 1
      ∧ (logTrace v l).count Event.bufPut = 1 := by
    intro v l
    obtain ⟨a, b, c⟩ := v
    cases a <;> cases b <;> cases c <;> cases l <;> exact (by decide)
  refine ⟨hbase env lv, ?_, ?_, ?_, ?_⟩
  · rcases hg : Entry.matchLevel lg e lv with _ | b
    · rw [leveledCall, hg]; rfl
    · cases b with
      | false => rw [leveledCall, hg]; rfl
      | true =>
        rw [leveledCall, hg, Entry.log]
        rw [(hbase env lv).1, (hbase env lv).2]
  · rcases hg : Entry.matchLevel lg e .fatal with _ | b
    · rw [fatalCall, hg]; rfl
    · cases b with
      | false => rw [fatalCall, hg]; rfl
      | true =>
        rw [fatalCall, hg, Entry.log]
        simp [List.count_append, (hbase env .fatal).1, (hbase env .fatal).2]
  · rcases hg : Entry.matchLevel lg e .panic with _ | b
    · rw [panicCall, hg]; rfl
    · cases b with
      | false => rw [panicCall, hg]; rfl
      | true =>
        rw [panicCall, hg, Entry.log]
        rw [(hbase env .panic).1, (hbase env .panic).2]
  · induction envs with
    | nil => rfl
    | cons v vs ih =>
      simp only [List.map_cons, List.flatten_cons, List.count_append, ih,
        (hbase v lv).1, (hbase v lv).2]

theorem Fields.setList_getLast (f : Fields) (ps : List (String × Value))
    (p : String × Value) (h : ps.getLast? = some p) :
    f.setList ps p.1 = some p.2 := by
  rw [Fields.setList_apply]
  rw [List.getLast?_eq_head?_reverse] at h
  rcases hr : ps.reverse with _ | ⟨q, rest⟩
  · rw [hr] at h; cases h
  · rw [hr] at h
    injection h with h
    subst h
    rcases q with ⟨qk, qv⟩
    simp

theorem withExtras_ne_nil : ∀ (l : List Value), l ≠ [] → withExtras l ≠ []
  | [], h => absurd rfl h
  | [_], _ => by simp [withExtras]
  | _ :: _ :: _, _ => by simp [withExtras]

theorem withExtras_last_null : ∀ (l : List Value) (x : Value),
    l.getLast? = some x → l.length % 2 = 1 →
    (withExtras l).getLast? = some (stringify x, Value.null)
  | [], _, h, _ => by cases h
  | [k], x, h, _ => by
    rw [List.getLast?_singleton] at h
    injection h with h
    subst h
    rfl
  | k :: v :: rest, x, h, hodd => by
    have hrodd : rest.length % 2 = 1 := by
      have hl : (k :: v :: rest).length = rest.length + 2 := by simp
      rw [hl, Nat.add_mod_right] at hodd
      exact hodd
    have hrne : rest ≠ [] := by
      intro he; rw [he] at hrodd; simp at hrodd
    rcases hrest : rest with _ | ⟨r, rs⟩
    · exact absurd hrest hrne
    · subst hrest
      rw [List.getLast?_cons_cons] at h
      have hlast : (r :: rs).getLast? = some x := by
        rcases rs with _ | ⟨r2, rs2⟩
        · simpa using h
        · rw [List.getLast?_cons_cons] at h; exact h
      have ih := withExtras_last_null (r :: rs) x hlast hrodd
      show ((stringify k, v) :: withExtras (r :: rs)).getLast? = _
      rcases hw : withExtras (r :: rs) with _ | ⟨w, ws⟩
      · exact absurd hw (withExtras_ne_nil _ (by simp))
      · rw [hw] at ih
        rw [List.getLast?_cons_cons]
        exact ih

/-- C8: `Entry.With` inserts the mandatory leading pair, consumes the trailing
extras two at a time with non-string keys coerced to their display-string
form, and — when the trailing sequence has odd length — inserts the final
unpaired key with a nil value instead of dropping it or failing: in general
the stringified last element of any odd-length extras list maps to nil in the
result, and concretely `With("k", v, "x")` yields k = v and x = nil, while
`With("k", v, 3, w)` coerces the integer key to "3" mapped to w. -/
theorem C8_with_variadic (e : Entry) (key : String) (value v w : Value)
    (extras : List Value) (lastv : Value)
    (hlast : extras.getLast? = some lastv) (hodd : extras.length % 2 = 1) :
    ((e.With key value extras).Data (stringify lastv) = some Value.null)
    ∧ ((e.With "k" v [Value.str "x"]).Data "k" = some v
        ∧ (e.With "k" v [Value.str "x"]).Data "x" = some Value.null)
    ∧ ((e.With "k" v [Value.int 3, w]).Data "3" = some w
        ∧ (e.With "k" v [Value.int 3, w]).Data "k" = some v) := by
  refine ⟨?_, ⟨?_, ?_⟩, ⟨?_, ?_⟩⟩
  · have hw := withExtras_last_null extras lastv hlast hodd
    have hs := Fields.setList_getLast (Fields.empty.set key value)
      (withExtras extras) (stringify lastv, Value.null) hw
    rw [Entry.With, Entry.WithFields_apply, hs]
    rfl
  · rfl
  · rfl
  · rfl
  · rfl

/-- Witness for C8: `With("k", v, "x")` maps the odd trailing key "x" to
nil. -/
theorem C8_with_variadic_witness :
    (Entry.With ⟨Fields.empty⟩ "k" (Value.int 1) [Value.str "x"]).Data "x"
      = some Value.null :=
  (C8_with_variadic ⟨Fields.empty⟩ "k" (Value.int 1) (Value.int 1)
    (Value.int 1) [Value.str "x"] (Value.str "x") rfl rfl).1

/-- Counterexample to C5: a structured error whose attached fields contain the
reserved stack-trace key.  The code writes the reserved keys first and then
ranges over the attached fields writing into the same map, so the attached
value overwrites the reserved one: the produced fragment's stack-trace key
holds the attached "bogus", not the error's own captured "origStack". -/
theorem C5_counterexample :
    (Entry.WithError ⟨Fields.empty⟩
      (Value.errStructured "mod" "origStack"
        [(StacktraceKey, Value.str "bogus")]) "fresh").Data StacktraceKey
      = some (Value.str "bogus")
    ∧ (Entry.WithError ⟨Fields.empty⟩
      (Value.errStructured "mod" "origStack"
        [(StacktraceKey, Value.str "bogus")]) "fresh").Data StacktraceKey
      ≠ some (Value.str "origStack") := by
  have h1 : (Entry.WithError ⟨Fields.empty⟩
      (Value.errStructured "mod" "origStack"
        [(StacktraceKey, Value.str "bogus")]) "fresh").Data StacktraceKey
      = some (Value.str "bogus") := rfl
  refine ⟨h1, ?_⟩
  rw [h1]
  simp only [ne_eq, Option.some.injEq, Value.str.injEq]
  decide

/-- C5 as amended: in `WithError`'s structured branch the reserved error,
stack-trace and module-name keys are written first and the error's attached
fields are written into the same map afterwards, so on a key collision the
attached field overwrites the reserved key — the attached fields always win;
the reserved keys hold the error's own values only when no attached field key
collides with them. -/
theorem C5_amended (e : Entry) (name stack : String)
    (fl : List (String × Value)) (fresh : String) (k : String) (v : Value)
    (hk : fl.reverse.lookup k = some v) :
    (Entry.WithError e (.errStructured name stack fl) fresh).Data k = some v := by
  simp only [Entry.WithError]
  rw [Entry.WithFields_apply, Fields.setList_apply, hk]
  rfl

/-- Witness for C5 as amended: an attached field "path" ends up in the
fragment. -/
theorem C5_amended_witness :
    (Entry.WithError ⟨Fields.empty⟩
      (Value.errStructured "mod" "stk" [("path", Value.str "/tmp")])
      "fresh").Data "path" = some (Value.str "/tmp") :=
  C5_amended ⟨Fields.empty⟩ "mod" "stk" [("path", Value.str "/tmp")] "fresh"
    "path" (Value.str "/tmp") rfl

/-- Counterexample to C7: for a structured error whose attached fields use the
reserved error key, the produced fragment does not hold the error itself under
the error key — the attached field, merged last, has overwritten it. -/
theorem C7_counterexample :
    (Entry.WithError ⟨Fields.empty⟩
      (Value.errStructured "mod" "stk" [(ErrorKey, Value.int 7)]) "fresh").Data
      ErrorKey = some (Value.int 7)
    ∧ (Entry.WithError ⟨Fields.empty⟩
      (Value.errStructured "mod" "stk" [(ErrorKey, Value.int 7)]) "fresh").Data
      ErrorKey
      ≠ some (Value.errStructured "mod" "stk" [(ErrorKey, Value.int 7)]) := by
  have h1 : (Entry.WithError ⟨Fields.empty⟩
      (Value.errStructured "mod" "stk" [(ErrorKey, Value.int 7)]) "fresh").Data
      ErrorKey = some (Value.int 7) := rfl
  refine ⟨h1, ?_⟩
  rw [h1]
  simp only [ne_eq, Option.some.injEq]
  intro h
  exact Value.noConfusion h

/-- C7 as amended: `WithError` splits on the error's kind.  For the structured
kind the fragment holds the error under the error key, its captured stack
trace under the stack-trace key, its module name under the module-name key
only when non-empty, and its attached fields merged in — the attached fields
merged last, winning key collisions, so the reserved-key contents just
described hold when no attached field key collides with them.  For any other
error value the fragment holds the error under the error key and the stack
trace captured freshly at the call site under the stack-trace key, all other
keys untouched. -/
theorem C7_amended (e : Entry) (name stack : String)
    (fl : List (String × Value)) (pmsg fresh : String) (k : String) :
    (fl.reverse.lookup ErrorKey = none →
      (Entry.WithError e (.errStructured name stack fl) fresh).Data ErrorKey
        = some (.errStructured name stack fl))
    ∧ (fl.reverse.lookup StacktraceKey = none →
      (Entry.WithError e (.errStructured name stack fl) fresh).Data
        StacktraceKey = some (.str stack))
    ∧ (name ≠ "" → fl.reverse.lookup ModuleNameKey = none →
      (Entry.WithError e (.errStructured name stack fl) fresh).Data
        ModuleNameKey = some (.str name))
    ∧ (name = "" → fl.reverse.lookup ModuleNameKey = none →
      (Entry.WithError e (.errStructured name stack fl) fresh).Data
        ModuleNameKey = e.Data ModuleNameKey)
    ∧ (∀ v : Value, fl.reverse.lookup k = some v →
      (Entry.WithError e (.errStructured name stack fl) fresh).Data k = some v)
    ∧ ((Entry.WithError e (.errPlain pmsg) fresh).Data ErrorKey
        = some (.errPlain pmsg))
    ∧ ((Entry.WithError e (.errPlain pmsg) fresh).Data StacktraceKey
        = some (.str fresh))
    ∧ (k ≠ ErrorKey → k ≠ StacktraceKey →
      (Entry.WithError e (.errPlain pmsg) fresh).Data k = e.Data k) := by
  refine ⟨?_, ?_, ?_, ?_, ?_, ?_, ?_, ?_⟩
  · intro h
    simp only [Entry.WithError]
    rw [Entry.WithFields_apply, Fields.setList_apply, h]
    by_cases hn : name = "" <;>
      simp [hn, Fields.set_apply, Fields.empty, ErrorKey, StacktraceKey,
        ModuleNameKey]
  · intro h
    simp only [Entry.WithError]
    rw [Entry.WithFields_apply, Fields.setList_apply, h]
    by_cases hn : name = "" <;>
      simp [hn, Fields.set_apply, Fields.empty, ErrorKey, StacktraceKey,
        ModuleNameKey]
  · intro hn h
    simp only [Entry.WithError]
    rw [Entry.WithFields_apply, Fields.setList_apply, h]
    simp [hn, Fields.set_apply, ModuleNameKey]
  · intro hn h
    simp only [Entry.WithError]
    rw [Entry.WithFields_apply, Fields.setList_apply, h]
    simp [hn, Fields.set_apply, Fields.empty, ErrorKey, StacktraceKey,
      ModuleNameKey]
  · intro v h
    simp only [Entry.WithError]
    rw [Entry.WithFields_apply, Fields.setList_apply, h]
    rfl
  · rfl
  · rfl
  · intro h1 h2
    simp only [Entry.WithError]
    rw [Entry.WithFields_apply]
    simp [Fields.set_apply, Fields.empty, h1, h2]

/-- Witness for C7 as amended: a collision-free structured error yields the
reserved keys from the error and its attached field alongside. -/
theorem C7_amended_witness :
    (Entry.WithError ⟨Fields.empty⟩
      (Value.errStructured "mod" "stk" [("path", Value.str "/tmp")])
      "fresh").Data ErrorKey
      = some (Value.errStructured "mod" "stk" [("path", Value.str "/tmp")])
    ∧ (Entry.WithError ⟨Fields.empty⟩
      (Value.errStructured "mod" "stk" [("path", Value.str "/tmp")])
      "fresh").Data StacktraceKey = some (Value.str "stk")
    ∧ (Entry.WithError ⟨Fields.empty⟩ (Value.errPlain "boom") "fresh").Data
        StacktraceKey = some (Value.str "fresh") :=
  ⟨(C7_amended ⟨Fields.empty⟩ "mod" "stk" [("path", Value.str "/tmp")] "boom"
      "fresh" "path").1 rfl,
   (C7_amended ⟨Fields.empty⟩ "mod" "stk" [("path", Value.str "/tmp")] "boom"
      "fresh" "path").2.1 rfl,
   (C7_amended ⟨Fields.empty⟩ "mod" "stk" [("path", Value.str "/tmp")] "boom"
      "fresh" "path").2.2.2.2.2.2.1⟩

end Logrus
